import Mathlib

/-!
Verification of the sftpGUI transfer core (`src/sftp_gui.py`).

Strings are modelled as `List Char` (Python `str` is a sequence of code
points).  Pure helpers are translated directly; the stateful worker and
session code are translated as explicit state passing, with the external
collaborators (the SFTP library, local filesystem, remote shell) modelled
as environment records whose fields say what each external call would
return.  Emitted Qt signals are modelled as an event trace.
-/

/-! ## Remote path rules (`normalize_remote`, `join_remote`) -/

/-- `path.replace("\\", "/")` applied characterwise. -/
def toSlash (c : Char) : Char := if c = '\\' then '/' else c

/-- One pass of Python `path.replace("//", "/")`: replace the
non-overlapping occurrences of `//`, scanning left to right. -/
def pyReplace2 : List Char → List Char
  | [] => []
  | [c] => [c]
  | c1 :: c2 :: rest =>
    if c1 == '/' && c2 == '/' then '/' :: pyReplace2 rest
    else c1 :: pyReplace2 (c2 :: rest)

/-- Python `"//" in path`. -/
def hasDoubleSlash : List Char → Bool
  | c1 :: c2 :: rest => (c1 == '/' && c2 == '/') || hasDoubleSlash (c2 :: rest)
  | _ => false

/-- The `while "//" in path: path = path.replace("//", "/")` loop of
`normalize_remote`, translated with explicit fuel.  Each iteration with a
double slash strictly shrinks the list, so `l.length` iterations always
reach the loop's fixed point (`collapseSteps_noDouble`). -/
def collapseSteps : Nat → List Char → List Char
  | 0, l => l
  | fuel + 1, l => if hasDoubleSlash l then collapseSteps fuel (pyReplace2 l) else l

/-- `normalize_remote` (src/sftp_gui.py lines 33–39). -/
def normalize_remote (path : List Char) : List Char :=
  if path = [] then ['/']
  else collapseSteps (path.map toSlash).length (path.map toSlash)

/-- `join_remote` (src/sftp_gui.py lines 42–46). -/
def join_remote (base name : List Char) : List Char :=
  let b := normalize_remote base
  if b.getLast? = some '/' then b ++ name else b ++ '/' :: name

theorem pyReplace2_length_le (l : List Char) : (pyReplace2 l).length ≤ l.length := by
  induction l using pyReplace2.induct with
  | case1 => simp [pyReplace2]
  | case2 c => simp [pyReplace2]
  | case3 c1 c2 rest h ih =>
      simp only [pyReplace2, if_pos h, List.length_cons]
      omega
  | case4 c1 c2 rest h ih =>
      simp only [pyReplace2, if_neg h, List.length_cons]
      simpa using ih

theorem pyReplace2_length_lt (l : List Char) (h : hasDoubleSlash l = true) :
    (pyReplace2 l).length < l.length := by
  induction l using pyReplace2.induct with
  | case1 => simp [hasDoubleSlash] at h
  | case2 c => simp [hasDoubleSlash] at h
  | case3 c1 c2 rest hc ih =>
      have := pyReplace2_length_le rest
      simp only [pyReplace2, if_pos hc, List.length_cons]
      omega
  | case4 c1 c2 rest hc ih =>
      simp only [hasDoubleSlash] at h
      rcases Bool.or_eq_true_iff.mp h with h' | h'
      · exact absurd h' (by simpa using hc)
      · have := ih h'
        simp only [List.length_cons] at this
        simp only [pyReplace2, if_neg hc, List.length_cons]
        omega

theorem collapseSteps_noDouble (fuel : Nat) (l : List Char) (h : l.length ≤ fuel) :
    hasDoubleSlash (collapseSteps fuel l) = false := by
  induction fuel generalizing l with
  | zero =>
      have : l = [] := List.length_eq_zero.mp (Nat.le_zero.mp h)
      subst this
      simp [collapseSteps, hasDoubleSlash]
  | succ fuel ih =>
      by_cases hd : hasDoubleSlash l = true
      · rw [collapseSteps, if_pos hd]
        exact ih _ (by have := pyReplace2_length_lt l hd; omega)
      · rw [collapseSteps, if_neg hd]
        exact Bool.not_eq_true _ ▸ hd

theorem collapseSteps_of_noDouble (fuel : Nat) (l : List Char)
    (h : hasDoubleSlash l = false) : collapseSteps fuel l = l := by
  cases fuel <;> simp [collapseSteps, h]

theorem pyReplace2_mem (l : List Char) (c : Char) (h : c ∈ pyReplace2 l) : c ∈ l := by
  induction l using pyReplace2.induct with
  | case1 => simp [pyReplace2] at h
  | case2 d => simpa [pyReplace2] using h
  | case3 c1 c2 rest hc ih =>
      simp only [pyReplace2, if_pos hc, List.mem_cons] at h
      rcases h with h | h
      · subst h
        have : c1 = '/' := by simpa using (Bool.and_eq_true_iff.mp hc).1
        simp [this]
      · simp [ih h]
  | case4 c1 c2 rest hc ih =>
      simp only [pyReplace2, if_neg hc, List.mem_cons] at h
      rcases h with h | h
      · simp [h]
      · simpa using Or.inr (ih h)

theorem collapseSteps_mem (fuel : Nat) (l : List Char) (c : Char)
    (h : c ∈ collapseSteps fuel l) : c ∈ l := by
  induction fuel generalizing l with
  | zero => simpa [collapseSteps] using h
  | succ fuel ih =>
      by_cases hd : hasDoubleSlash l = true
      · rw [collapseSteps, if_pos hd] at h
        exact pyReplace2_mem _ _ (ih _ h)
      · rwa [collapseSteps, if_neg hd] at h

theorem pyReplace2_ne_nil (l : List Char) (h : l ≠ []) : pyReplace2 l ≠ [] := by
  match l with
  | [] => exact absurd rfl h
  | [c] => simp [pyReplace2]
  | c1 :: c2 :: rest =>
      by_cases hc : (c1 == '/' && c2 == '/') = true
      · simp [pyReplace2, hc]
      · simp [pyReplace2, hc]

theorem pyReplace2_head? (l : List Char) : (pyReplace2 l).head? = l.head? := by
  match l with
  | [] => rfl
  | [c] => rfl
  | c1 :: c2 :: rest =>
      by_cases hc : (c1 == '/' && c2 == '/') = true
      · have h1 : c1 = '/' := by simpa using (Bool.and_eq_true_iff.mp hc).1
        simp only [pyReplace2]
        rw [if_pos hc]
        simp [h1]
      · simp [pyReplace2, hc]

theorem collapseSteps_ne_nil (fuel : Nat) (l : List Char) (h : l ≠ []) :
    collapseSteps fuel l ≠ [] := by
  induction fuel generalizing l with
  | zero => simpa [collapseSteps]
  | succ fuel ih =>
      by_cases hd : hasDoubleSlash l = true
      · rw [collapseSteps, if_pos hd]
        exact ih _ (pyReplace2_ne_nil _ h)
      · rwa [collapseSteps, if_neg hd]

theorem collapseSteps_head? (fuel : Nat) (l : List Char) :
    (collapseSteps fuel l).head? = l.head? := by
  induction fuel generalizing l with
  | zero => simp [collapseSteps]
  | succ fuel ih =>
      by_cases hd : hasDoubleSlash l = true
      · rw [collapseSteps, if_pos hd, ih, pyReplace2_head?]
      · rw [collapseSteps, if_neg hd]

theorem map_toSlash_eq_self (l : List Char) (h : ∀ c ∈ l, c ≠ '\\') :
    l.map toSlash = l := by
  induction l with
  | nil => rfl
  | cons c cs ih =>
      have hc : c ≠ '\\' := h c (by simp)
      simp only [List.map_cons, toSlash, if_neg hc, List.cons.injEq, true_and]
      exact ih fun d hd => h d (by simp [hd])

theorem toSlash_ne_backslash (c : Char) : toSlash c ≠ '\\' := by
  unfold toSlash
  by_cases h : c = '\\' <;> simp [h]

theorem normalize_remote_no_backslash (p : List Char) :
    ∀ c ∈ normalize_remote p, c ≠ '\\' := by
  intro c hc
  unfold normalize_remote at hc
  by_cases hp : p = []
  · simp [hp] at hc
    simp [hc]
  · rw [if_neg hp] at hc
    have := collapseSteps_mem _ _ _ hc
    rcases List.mem_map.mp this with ⟨d, _, hd⟩
    exact hd ▸ toSlash_ne_backslash d

theorem normalize_remote_noDouble (p : List Char) :
    hasDoubleSlash (normalize_remote p) = false := by
  unfold normalize_remote
  by_cases hp : p = []
  · simp [hp, hasDoubleSlash]
  · rw [if_neg hp]
    exact collapseSteps_noDouble _ _ le_rfl

theorem normalize_remote_ne_nil (p : List Char) : normalize_remote p ≠ [] := by
  unfold normalize_remote
  by_cases hp : p = []
  · simp [hp]
  · rw [if_neg hp]
    exact collapseSteps_ne_nil _ _ (by simpa using hp)

theorem normalize_remote_idem (p : List Char) :
    normalize_remote (normalize_remote p) = normalize_remote p := by
  have hne := normalize_remote_ne_nil p
  have hnb := normalize_remote_no_backslash p
  have hnd := normalize_remote_noDouble p
  conv_lhs => rw [normalize_remote]
  rw [if_neg hne, map_toSlash_eq_self _ hnb, collapseSteps_of_noDouble _ _ hnd]

theorem normalize_remote_head (p : List Char)
    (h : p = [] ∨ p.head? = some '/' ∨ p.head? = some '\\') :
    (normalize_remote p).head? = some '/' := by
  rcases h with h | h | h
  · simp [h, normalize_remote]
  · have hp : p ≠ [] := by rintro rfl; simp at h
    rw [normalize_remote, if_neg hp, collapseSteps_head?, List.head?_map, h]
    simp [toSlash]
  · have hp : p ≠ [] := by rintro rfl; simp at h
    rw [normalize_remote, if_neg hp, collapseSteps_head?, List.head?_map, h]
    simp [toSlash]

/-! ## Remote navigation (`MainWindow.remote_up`, src/sftp_gui.py lines 773–779) -/

/-- The characters stripped by Python `str.strip()` with no arguments
(ASCII whitespace as it occurs in path entry fields). -/
def isPySpace (c : Char) : Bool :=
  c == ' ' || c == '\t' || c == '\n' || c == '\r' || c == '\x0b' || c == '\x0c'

/-- Python `s.strip()`. -/
def pyStrip (s : List Char) : List Char :=
  ((s.dropWhile isPySpace).reverse.dropWhile isPySpace).reverse

/-- Python `s or "/"` on a string: empty string is falsy. -/
def pyOrSlash (s : List Char) : List Char := if s = [] then ['/'] else s

/-- Python `p.rstrip("/")`. -/
def rstripSlash (p : List Char) : List Char :=
  (p.reverse.dropWhile (· == '/')).reverse

/-- `os.path.dirname` (posixpath): everything up to and including the last
`/`, then (unless the head is empty or all slashes) with trailing slashes
stripped. -/
def dirname (p : List Char) : List Char :=
  let head : List Char :=
    match p.reverse.findIdx? (· == '/') with
    | none => []
    | some j => p.take (p.length - j)
  if head ≠ [] ∧ ¬ head.all (· == '/') = true then rstripSlash head else head

/-- `MainWindow.remote_up` as a function from the remote-path text field to
its new contents: `p = normalize_remote(text.strip() or "/")`; if `p == "/"`
return (text unchanged); else set the field to
`normalize_remote(os.path.dirname(p.rstrip("/")) or "/")`. -/
def remote_up (text : List Char) : List Char :=
  if normalize_remote (pyOrSlash (pyStrip text)) = ['/'] then text
  else
    normalize_remote
      (pyOrSlash (dirname (rstripSlash (normalize_remote (pyOrSlash (pyStrip text))))))

/-! ## Directory listing sort (`MainWindow.refresh_remote`, lines 753–767) -/

/-- `RemoteEntry` (src/sftp_gui.py lines 118–124). -/
structure RemoteEntry where
  name : List Char
  is_dir : Bool
  size : Nat
  mtime : Nat
  mode : Nat
deriving DecidableEq

/-- Python string `<=` on the code points (used by tuple comparison inside
`list.sort`). -/
def lexLe : List Char → List Char → Bool
  | [], _ => true
  | _ :: _, [] => false
  | a :: as, b :: bs =>
    if a.toNat < b.toNat then true
    else if b.toNat < a.toNat then false
    else lexLe as bs

/-- The sort key of `refresh_remote`: `(not e.is_dir, e.name.lower())`.
`str.lower()` is modelled with `Char.toLower` (ASCII case folding, which
covers the names the sort comparisons in this program distinguish). -/
def entryKeyLower (e : RemoteEntry) : List Char := e.name.map Char.toLower

/-- Non-strict tuple comparison `(not a.is_dir, a.name.lower()) <=
(not b.is_dir, b.name.lower())`: `False < True` on the first component,
then code-point order on the lowered name. -/
def keyLe (a b : RemoteEntry) : Bool :=
  (!(!a.is_dir) && !b.is_dir) || ((!a.is_dir) == (!b.is_dir) && lexLe (entryKeyLower a) (entryKeyLower b))

/-- `keyLe` as a relation, so Mathlib's sorting lemmas apply. -/
def entryLe (a b : RemoteEntry) : Prop := keyLe a b = true

instance : DecidableRel entryLe := fun a b => by unfold entryLe; infer_instance

/-- `entries.sort(key=lambda e: (not e.is_dir, e.name.lower()))` in
`refresh_remote`: a stable sort by the non-strict key order. -/
def refreshSort (entries : List RemoteEntry) : List RemoteEntry :=
  List.insertionSort entryLe entries

theorem lexLe_total (x y : List Char) : lexLe x y = true ∨ lexLe y x = true := by
  induction x generalizing y with
  | nil => left; rfl
  | cons a as ih =>
      cases y with
      | nil => right; rfl
      | cons b bs =>
          simp only [lexLe]
          rcases Nat.lt_trichotomy a.toNat b.toNat with h | h | h
          · left; simp [h]
          · have h1 : ¬ a.toNat < b.toNat := by omega
            have h2 : ¬ b.toNat < a.toNat := by omega
            rcases ih bs with h3 | h3
            · left; simp [h1, h2, h3]
            · right; simp [h1, h2, h3]
          · right; simp [h]

theorem lexLe_trans (x y z : List Char) (h1 : lexLe x y = true) (h2 : lexLe y z = true) :
    lexLe x z = true := by
  induction x generalizing y z with
  | nil => rfl
  | cons a as ih =>
      cases y with
      | nil => simp [lexLe] at h1
      | cons b bs =>
          cases z with
          | nil => simp [lexLe] at h2
          | cons c cs =>
              simp only [lexLe] at h1 h2 ⊢
              by_cases hab : a.toNat < b.toNat
              · by_cases hbc : b.toNat < c.toNat
                · simp [show a.toNat < c.toNat by omega]
                · simp only [if_pos hab] at h1
                  by_cases hcb : c.toNat < b.toNat
                  · simp [hbc, hcb] at h2
                  · simp [show a.toNat < c.toNat by omega]
              · by_cases hba : b.toNat < a.toNat
                · simp [hab, hba] at h1
                · -- a.toNat = b.toNat
                  simp only [if_neg hab, if_neg hba] at h1
                  by_cases hbc : b.toNat < c.toNat
                  · simp [show a.toNat < c.toNat by omega]
                  · by_cases hcb : c.toNat < b.toNat
                    · simp [hbc, hcb] at h2
                    · simp only [if_neg hbc, if_neg hcb] at h2
                      have hac : ¬ a.toNat < c.toNat := by omega
                      have hca : ¬ c.toNat < a.toNat := by omega
                      simp only [if_neg hac, if_neg hca]
                      exact ih bs cs h1 h2

instance : IsTotal RemoteEntry entryLe := by
  constructor
  intro a b
  unfold entryLe keyLe
  cases ha : a.is_dir <;> cases hb : b.is_dir <;>
    rcases lexLe_total (entryKeyLower a) (entryKeyLower b) with h | h <;> simp [h]

instance : IsTrans RemoteEntry entryLe := by
  constructor
  intro a b c h1 h2
  unfold entryLe keyLe at h1 h2 ⊢
  cases ha : a.is_dir <;> cases hb : b.is_dir <;> cases hc : c.is_dir <;>
    simp_all <;> exact lexLe_trans _ _ _ h1 h2

/-! ## SSH/SFTP session (`SshSftpSession`, src/sftp_gui.py lines 52–112) -/

/-- Exception values raised inside the engine/session, keeping the
messages the code builds (`RuntimeError("Cancelled")`,
`RuntimeError("Not connected")`, the `RuntimeError`s wrapping failed
remote `tar` commands) as structured constructors; other library or OS
errors are abstracted as `ioError`. -/
inductive ExcMsg
  | cancelled
  | notConnected
  | remoteExtractFailed
  | remoteArchiveFailed
  | ioError (code : Nat)
deriving DecidableEq

/-- The session state: `self.ssh`, `self.sftp` (handles modelled as opaque
ids, `none` = Python `None`), `self.host`, `self.username`. -/
structure Session where
  ssh : Option Nat
  sftp : Option Nat
  host : List Char
  username : List Char
deriving DecidableEq

/-- Signals emitted by `SshSftpSession` (`connected_changed`). -/
inductive SEvent
  | connectedChanged (b : Bool)
deriving DecidableEq

/-- `is_connected` (lines 62–63): `self.ssh is not None and self.sftp is
not None`. -/
def Session.is_connected (s : Session) : Bool := s.ssh.isSome && s.sftp.isSome

/-- Environment of one `disconnect` call: whether each `close()` call
would raise.  Both closes are wrapped in `try/except Exception: pass`, so
these flags cannot influence the result — which is exactly the claimed
behaviour. -/
structure DiscEnv where
  sftpCloseFails : Bool
  sshCloseFails : Bool
deriving DecidableEq

/-- Result of `disconnect`: the new session state, the emitted signals,
and which of the two `close()` calls were reached and attempted. -/
structure DiscResult where
  session : Session
  events : List SEvent
  sftpCloseAttempted : Bool
  sshCloseAttempted : Bool
deriving DecidableEq

/-- `disconnect` (lines 89–103): best-effort close of `sftp` then `ssh`
(each in its own `try/except Exception: pass`), then both fields are set
to `None` and `connected_changed.emit(False)`. -/
def Session.disconnect (s : Session) (_env : DiscEnv) : DiscResult :=
  -- `try: if self.sftp is not None: self.sftp.close() except: pass`
  let sftpAttempted := s.sftp.isSome
  -- `try: if self.ssh is not None: self.ssh.close() except: pass` —
  -- reached regardless of whether the first close raised
  let sshAttempted := s.ssh.isSome
  { session := { s with ssh := none, sftp := none },
    events := [SEvent.connectedChanged false],
    sftpCloseAttempted := sftpAttempted,
    sshCloseAttempted := sshAttempted }

/-- Environment of one `connect` call: whether
`paramiko.SSHClient.connect` (transport + authentication) raises, whether
`open_sftp` (the file-transfer channel) raises, and the handles produced
on success. -/
structure ConnectEnv where
  connectFails : Option ExcMsg
  sftpFails : Option ExcMsg
  sshHandle : Nat
  sftpHandle : Nat
deriving DecidableEq

/-- `connect` (lines 65–87): `self.disconnect()` first, then the `host`
and `username` fields are overwritten, then the transport is opened and
authenticated and the SFTP channel opened; only on success are the two
handles stored and `connected_changed.emit(True)` sent.  A raise
propagates to the caller with the handle fields still `None`. -/
def Session.connect (s : Session) (host username : List Char)
    (denv : DiscEnv) (cenv : ConnectEnv) : Session × List SEvent × Option ExcMsg :=
  let d := s.disconnect denv
  let s1 := { d.session with host := host, username := username }
  match cenv.connectFails with
  | some e => (s1, d.events, some e)
  | none =>
    match cenv.sftpFails with
    | some e => (s1, d.events, some e)
    | none =>
      ({ s1 with ssh := some cenv.sshHandle, sftp := some cenv.sftpHandle },
       d.events ++ [SEvent.connectedChanged true], none)

/-! ## Transfer worker (`TransferWorker`, src/sftp_gui.py lines 200–373) -/

/-- The status texts emitted via `self.status.emit(...)`, with the data
interpolated into each f-string kept as payload. -/
inductive StatusMsg
  | ensuringDir (d : List Char)          -- "Ensuring remote dir: {remote_dir}"
  | uploadingIdx (i n : Nat) (rp : List Char)  -- "[{i}/{n}] Uploading file -> {rp}"
  | uploading (name : List Char)         -- "Uploading: {basename}"
  | downloading (name : List Char)       -- "Downloading: {basename}"
  | downloadingIdx (i n : Nat) (name : List Char) -- "[{i}/{n}] Downloading -> {lp}"
  | compressing                          -- "Compressing folder..."
  | ensuringDirFolder                    -- "Ensuring remote dir..."
  | uploadingCompressed                  -- "Uploading compressed folder..."
  | extractingRemote                     -- "Extracting on remote..."
  | creatingRemoteArchive                -- "Creating archive on remote..."
  | downloadingArchive                   -- "Downloading archive..."
  | cleaningRemote                       -- "Cleaning remote temp..."
  | extractingLocally                    -- "Extracting locally..."
deriving DecidableEq

/-- The message of the terminal `finished` signal: the fixed texts, and
the failure texts `"<prefix>: {e}"` with the wrapped exception as
payload. -/
inductive Msg
  | noLocalFiles          -- "No local files selected."
  | noRemoteFiles         -- "No remote files selected."
  | notAFolder            -- "Selected path is not a folder."
  | uploadCompleted       -- "Upload completed."
  | downloadCompleted     -- "Download completed."
  | folderUploadCompleted   -- "Folder upload completed."
  | folderDownloadCompleted -- "Folder download completed."
  | uploadFailed (e : ExcMsg)         -- "Upload failed: {e}"
  | downloadFailed (e : ExcMsg)       -- "Download failed: {e}"
  | folderUploadFailed (e : ExcMsg)   -- "Folder upload failed: {e}"
  | folderDownloadFailed (e : ExcMsg) -- "Folder download failed: {e}"
deriving DecidableEq

/-- The worker's signals, as a trace: `progress` (0..100), `status`,
`finished(ok, message)`. -/
inductive Event
  | progress (n : Nat)
  | status (s : StatusMsg)
  | finished (ok : Bool) (m : Msg)
deriving DecidableEq

deriving instance DecidableEq for Except

/-- `max(0, min(100, int((tx / d) * 100)))` for `d > 0`: the float
percentage truncates to the integer quotient `tx * 100 / d` at the scales
involved, modelled as natural floor division. -/
def pctOf (d tx : Nat) : Nat := max 0 (min 100 (tx * 100 / d))

/-- The progress callback loop shared by `sftp.put`/`sftp.get`: the
library invokes `cb(tx, total)` once per transferred chunk; `obs` lists,
per invocation, the transferred byte count `tx` and the value of
`self._cancel` read by that invocation.  The callback emits a clamped
percentage when the size used for the division is positive (`total > 0`
in `_put_file`; `remote_size and remote_size > 0` in `_get_file`), and
then raises `RuntimeError("Cancelled")` if the flag was set.  Returns the
emitted events and whether the callback raised. -/
def transferCallbacks (d : Nat) : List (Nat × Bool) → List Event × Bool
  | [] => ([], false)
  | (tx, c) :: rest =>
    let es : List Event := if 0 < d then [Event.progress (pctOf d tx)] else []
    if c then (es, true)
    else
      let r := transferCallbacks d rest
      (es ++ r.1, r.2)

/-- Environment of one `sftp.put` call: the callback observations, and
whether `put` itself fails with an I/O error after those callbacks
(`none` = the transfer ran to completion). -/
structure PutEnv where
  obs : List (Nat × Bool)
  err : Option ExcMsg
deriving DecidableEq

/-- `_put_file` (lines 213–227): `total = os.path.getsize(local_path)`;
emit status `"Uploading: basename"` and `progress(0)`; run `sftp.put`
with the percentage callback; on normal return emit `progress(100)`.
Returns the events together with the propagated exception, if any. -/
def put_file (name : List Char) (total : Nat) (env : PutEnv) : List Event × Option ExcMsg :=
  let r := transferCallbacks total env.obs
  let pre : List Event := [Event.status (StatusMsg.uploading name), Event.progress 0]
  if r.2 then (pre ++ r.1, some ExcMsg.cancelled)
  else
    match env.err with
    | some e => (pre ++ r.1, some e)
    | none => (pre ++ r.1 ++ [Event.progress 100], none)

/-- Environment of one `sftp.stat` + `sftp.get` sequence: the `stat`
outcome (`error` = it raised, in which case the code falls back to size
`0`; `ok v` = it returned, `v` being `st_size`, possibly `None`), the
callback observations, and whether `get` itself fails afterwards. -/
structure GetEnv where
  stat : Except Unit (Option Nat)
  obs : List (Nat × Bool)
  err : Option ExcMsg
deriving DecidableEq

/-- `_get_file` (lines 229–247), always called with `remote_size=None` so
it stats the remote file first; a `stat` failure falls back to size `0`,
and the callback only emits percentages when the size is a positive
number (`remote_size and remote_size > 0` is false for `None` and `0`). -/
def get_file (name : List Char) (env : GetEnv) : List Event × Option ExcMsg :=
  let remote_size : Option Nat :=
    match env.stat with
    | Except.error _ => some 0
    | Except.ok v => v
  let r := transferCallbacks (remote_size.getD 0) env.obs
  let pre : List Event := [Event.status (StatusMsg.downloading name), Event.progress 0]
  if r.2 then (pre ++ r.1, some ExcMsg.cancelled)
  else
    match env.err with
    | some e => (pre ++ r.1, some e)
    | none => (pre ++ r.1 ++ [Event.progress 100], none)

/-- `self.session.exec(...)` where the caller ignores the returned
triple: raises `RuntimeError("Not connected")` when the session is
disconnected, and may itself raise (network failure) per the
environment. -/
def sessionExec (connected : Bool) (err : Option ExcMsg) : Option ExcMsg :=
  if connected then err else some ExcMsg.notConnected

/-- `self.session.exec(...)` where the caller reads the exit code:
either a raised exception or the remote command's exit code. -/
def sessionExecCode (connected : Bool) (res : Except ExcMsg Int) : Except ExcMsg Int :=
  if connected then res else Except.error ExcMsg.notConnected

/-- One entry of the `upload_files` batch: `basename(lp)`, the local
file's size, the `_cancel` value read by the loop's per-file checkpoint,
and the `sftp.put` environment. -/
structure UpFileEnv where
  preCancel : Bool
  name : List Char
  size : Nat
  put : PutEnv
deriving DecidableEq

/-- Outcome of the `for i, lp in enumerate(local_paths, start=1)` loop of
`upload_files`: events emitted inside the loop, the (0-based) indices of
the files whose `_put_file` was started, the indices fully transferred,
and the first exception, which aborts the remaining files. -/
structure LoopOut where
  events : List Event
  attempted : List Nat
  completed : List Nat
  err : Option ExcMsg
deriving DecidableEq

/-- The per-file loop of `upload_files` (lines 262–267): checkpoint the
cancellation flag, build the destination via `join_remote`, emit the
`[i/n]` status, then `_put_file`. -/
def uploadLoop (rdir : List Char) (n : Nat) : Nat → List UpFileEnv → LoopOut
  | _, [] => ⟨[], [], [], none⟩
  | i, f :: rest =>
    if f.preCancel then ⟨[], [], [], some ExcMsg.cancelled⟩
    else
      let rp := join_remote rdir f.name
      let st := Event.status (StatusMsg.uploadingIdx (i + 1) n rp)
      let p := put_file f.name f.size f.put
      match p.2 with
      | some e => ⟨st :: p.1, [i], [], some e⟩
      | none =>
        let r := uploadLoop rdir n (i + 1) rest
        ⟨st :: p.1 ++ r.events, i :: r.attempted, i :: r.completed, r.err⟩

/-- What a whole `upload_files` job produced: its event trace plus which
files were started and which were fully transferred (an upload never
deletes a completed destination file, so `completed` is exactly what
remains at the destination). -/
structure BatchResult where
  events : List Event
  attempted : List Nat
  completed : List Nat
deriving DecidableEq

/-- `upload_files` (lines 249–271).  `connected`/`execErr` describe the
`mkdir -p` call; `files` is the (already split, blank-filtered) list of
selected local paths.  Every exit path funnels into exactly one
`finished` emission: the empty-selection early return, or the
`try/except` wrapper. -/
def upload_files (connected : Bool) (execErr : Option ExcMsg)
    (rdir0 : List Char) (files : List UpFileEnv) : BatchResult :=
  let rdir := normalize_remote rdir0
  if files = [] then ⟨[Event.finished false Msg.noLocalFiles], [], []⟩
  else
    let pre := [Event.status (StatusMsg.ensuringDir rdir)]
    match sessionExec connected execErr with
    | some e => ⟨pre ++ [Event.finished false (Msg.uploadFailed e)], [], []⟩
    | none =>
      let r := uploadLoop rdir files.length 0 files
      match r.err with
      | some e => ⟨pre ++ r.events ++ [Event.finished false (Msg.uploadFailed e)],
                   r.attempted, r.completed⟩
      | none => ⟨pre ++ r.events ++ [Event.finished true Msg.uploadCompleted],
                 r.attempted, r.completed⟩

/-- Environment of one `upload_folder` job (lines 273–312). -/
structure UploadFolderEnv where
  isLocalDir : Bool                -- `os.path.isdir(local_folder)`
  tmpErr : Option ExcMsg           -- `tempfile.NamedTemporaryFile` raising
  tarErr : Option ExcMsg           -- local `tarfile` archiving raising
  connected : Bool
  mkdirErr : Option ExcMsg         -- `exec("mkdir -p ...")` raising
  tarName : List Char              -- `basename` of the temp archive
  tarSize : Nat                    -- `os.path.getsize` of the archive
  put : PutEnv
  extractRemote : Bool
  extractExec : Except ExcMsg Int  -- `exec("tar -xzf ... && rm -f ...")`
deriving DecidableEq

/-- `upload_folder` (lines 273–312): not-a-folder early return; compress
(status + `progress(0)` first); `mkdir -p`; `_put_file` of the archive;
optional remote extraction whose non-zero exit raises; best-effort
`os.remove` of the temp archive (its errors are swallowed and it emits
nothing); one terminal `finished`. -/
def upload_folder (folderName rdir0 : List Char) (env : UploadFolderEnv) : List Event :=
  if env.isLocalDir = false then [Event.finished false Msg.notAFolder]
  else
    let rdir := normalize_remote rdir0
    match env.tmpErr with
    | some e => [Event.finished false (Msg.folderUploadFailed e)]
    | none =>
      let pre1 := [Event.status StatusMsg.compressing, Event.progress 0]
      match env.tarErr with
      | some e => pre1 ++ [Event.finished false (Msg.folderUploadFailed e)]
      | none =>
        let pre2 := pre1 ++ [Event.status StatusMsg.ensuringDirFolder]
        match sessionExec env.connected env.mkdirErr with
        | some e => pre2 ++ [Event.finished false (Msg.folderUploadFailed e)]
        | none =>
          let _remote_tar := join_remote rdir (folderName ++ ".tar.gz".data)
          let pre3 := pre2 ++ [Event.status StatusMsg.uploadingCompressed]
          let p := put_file env.tarName env.tarSize env.put
          match p.2 with
          | some e => pre3 ++ p.1 ++ [Event.finished false (Msg.folderUploadFailed e)]
          | none =>
            if env.extractRemote then
              let pre4 := pre3 ++ p.1 ++ [Event.status StatusMsg.extractingRemote]
              match sessionExecCode env.connected env.extractExec with
              | Except.error e => pre4 ++ [Event.finished false (Msg.folderUploadFailed e)]
              | Except.ok code =>
                if code ≠ 0 then
                  pre4 ++ [Event.finished false
                    (Msg.folderUploadFailed ExcMsg.remoteExtractFailed)]
                else pre4 ++ [Event.finished true Msg.folderUploadCompleted]
            else pre3 ++ p.1 ++ [Event.finished true Msg.folderUploadCompleted]

/-- One entry of the `download_files` batch. -/
structure DownFileEnv where
  preCancel : Bool
  name : List Char        -- `basename(rp.rstrip("/"))`
  get : GetEnv
deriving DecidableEq

/-- The per-file loop of `download_files` (lines 325–331). -/
def downloadLoop (n : Nat) : Nat → List DownFileEnv → List Event × Option ExcMsg
  | _, [] => ([], none)
  | i, f :: rest =>
    if f.preCancel then ([], some ExcMsg.cancelled)
    else
      let st := Event.status (StatusMsg.downloadingIdx (i + 1) n f.name)
      let g := get_file f.name f.get
      match g.2 with
      | some e => (st :: g.1, some e)
      | none =>
        let r := downloadLoop n (i + 1) rest
        (st :: g.1 ++ r.1, r.2)

/-- `download_files` (lines 314–335): `os.makedirs` (whose failure the
`try/except` turns into the terminal failure), empty-selection early
return, then the per-file loop; one terminal `finished`. -/
def download_files (mkErr : Option ExcMsg) (files : List DownFileEnv) : List Event :=
  match mkErr with
  | some e => [Event.finished false (Msg.downloadFailed e)]
  | none =>
    if files = [] then [Event.finished false Msg.noRemoteFiles]
    else
      let r := downloadLoop files.length 0 files
      match r.2 with
      | some e => r.1 ++ [Event.finished false (Msg.downloadFailed e)]
      | none => r.1 ++ [Event.finished true Msg.downloadCompleted]

/-- Environment of one `download_folder` job (lines 337–373). -/
structure DownloadFolderEnv where
  mkErr : Option ExcMsg             -- `os.makedirs` raising
  connected : Bool
  archiveName : List Char           -- `basename(remote_tar)`
  archiveExec : Except ExcMsg Int   -- `exec("tar -czf ...")`
  get : GetEnv
  rmErr : Option ExcMsg             -- `exec("rm -f ...")` raising (result ignored)
  extractLocal : Bool
  extractErr : Option ExcMsg        -- local `tarfile` extraction raising
deriving DecidableEq

/-- `download_folder` (lines 337–373): make the local dir; archive the
folder remotely (non-zero exit raises); download the archive; best-effort
remote cleanup via `exec` (its *result* is ignored but a raise still
aborts); optional local extraction with a swallowed `os.remove`; one
terminal `finished`. -/
def download_folder (remoteFolder0 : List Char) (env : DownloadFolderEnv) : List Event :=
  let _rf := normalize_remote remoteFolder0
  match env.mkErr with
  | some e => [Event.finished false (Msg.folderDownloadFailed e)]
  | none =>
    let pre1 := [Event.status StatusMsg.creatingRemoteArchive]
    match sessionExecCode env.connected env.archiveExec with
    | Except.error e => pre1 ++ [Event.finished false (Msg.folderDownloadFailed e)]
    | Except.ok code =>
      if code ≠ 0 then
        pre1 ++ [Event.finished false (Msg.folderDownloadFailed ExcMsg.remoteArchiveFailed)]
      else
        let pre2 := pre1 ++ [Event.status StatusMsg.downloadingArchive]
        let g := get_file env.archiveName env.get
        match g.2 with
        | some e => pre2 ++ g.1 ++ [Event.finished false (Msg.folderDownloadFailed e)]
        | none =>
          let pre3 := pre2 ++ g.1 ++ [Event.status StatusMsg.cleaningRemote]
          match sessionExec env.connected env.rmErr with
          | some e => pre3 ++ [Event.finished false (Msg.folderDownloadFailed e)]
          | none =>
            if env.extractLocal then
              let pre4 := pre3 ++ [Event.status StatusMsg.extractingLocally]
              match env.extractErr with
              | some e => pre4 ++ [Event.finished false (Msg.folderDownloadFailed e)]
              | none => pre4 ++ [Event.finished true Msg.folderDownloadCompleted]
            else pre3 ++ [Event.finished true Msg.folderDownloadCompleted]

/-! ## Trace observations -/

/-- The progress percentages of a trace, in emission order. -/
def progressValues : List Event → List Nat
  | [] => []
  | Event.progress n :: r => n :: progressValues r
  | _ :: r => progressValues r

/-- Whether an event is a terminal `finished` event. -/
def isTerminal : Event → Bool
  | Event.finished _ _ => true
  | _ => false

/-- How many terminal events a trace holds. -/
def countFinished (evs : List Event) : Nat := (evs.filter isTerminal).length

/-- A trace ends with its unique terminal event: exactly one `finished`
is emitted and nothing — in particular no progress event — follows it. -/
def oneTerminal (evs : List Event) : Prop :=
  ∃ pre ok m, evs = pre ++ [Event.finished ok m] ∧ countFinished pre = 0

/-- A decidable statement of "monotonically non-decreasing". -/
def nondecreasing : List Nat → Bool
  | a :: b :: r => a ≤ b && nondecreasing (b :: r)
  | _ => true

/-! ## Claim C1 — `normalize_remote` algebra -/

/-- C1 (amended): `normalize_remote` is idempotent, its result never
contains two consecutive `/`, the empty input yields `"/"`, and the
result starts with `/` whenever the input is empty or begins with `/` or
`\` — but not for arbitrary inputs (see `c1_counterexample`). -/
theorem c1_normalize_properties (p : List Char) :
    normalize_remote (normalize_remote p) = normalize_remote p ∧
    hasDoubleSlash (normalize_remote p) = false ∧
    normalize_remote [] = ['/'] ∧
    (p = [] ∨ p.head? = some '/' ∨ p.head? = some '\\' →
      (normalize_remote p).head? = some '/') :=
  ⟨normalize_remote_idem p, normalize_remote_noDouble p, rfl, normalize_remote_head p⟩

/-- C1, counterexample to the claim as stated: `normalize("a") = "a"`
does not start with `/` — the code collapses slashes but never prepends
one. -/
theorem c1_counterexample :
    ¬ ((normalize_remote "a".data).head? = some '/') := by decide

/-- C1 witness. -/
theorem c1_witness :
    (normalize_remote "//x\\y".data).head? = some '/' :=
  (c1_normalize_properties "//x\\y".data).2.2.2 (by decide)

/-! ## Claim C8 — `remote_up` -/

/-- C8: `up()` on `"/"` is a no-op; `up("/a/b") = "/a"`, `up("/a") = "/"`;
and in general on a non-root path the field is replaced by
`normalize(dirname(p.rstrip("/")) or "/")` — the parent of the path with
its trailing slashes stripped, an empty parent standing for `"/"`. -/
theorem c8_remote_up (t : List Char) :
    remote_up "/".data = "/".data ∧
    remote_up "/a/b".data = "/a".data ∧
    remote_up "/a".data = "/".data ∧
    (normalize_remote (pyOrSlash (pyStrip t)) ≠ ['/'] →
      remote_up t =
        normalize_remote (pyOrSlash (dirname (rstripSlash
          (normalize_remote (pyOrSlash (pyStrip t))))))) := by
  refine ⟨by decide, by decide, by decide, fun h => ?_⟩
  unfold remote_up
  rw [if_neg h]

/-- C8 witness. -/
theorem c8_witness :
    remote_up "/x/y".data =
      normalize_remote (pyOrSlash (dirname (rstripSlash
        (normalize_remote (pyOrSlash (pyStrip "/x/y".data)))))) :=
  (c8_remote_up "/x/y".data).2.2.2 (by decide)

/-! ## Claim C5 — connect failure leaves the session disconnected -/

/-- C5: if `connect` fails at any step — transport/authentication
(`connectFails`) or opening the SFTP channel (`sftpFails`) — the session
ends Disconnected: `is_connected` is `false` and neither handle is
retained. -/
theorem c5_connect_failure_disconnected (s : Session) (host username : List Char)
    (denv : DiscEnv) (cenv : ConnectEnv)
    (h : (s.connect host username denv cenv).2.2 ≠ none) :
    (s.connect host username denv cenv).1.is_connected = false ∧
    (s.connect host username denv cenv).1.ssh = none ∧
    (s.connect host username denv cenv).1.sftp = none := by
  unfold Session.connect Session.disconnect at *
  match hc : cenv.connectFails with
  | some e => simp [hc, Session.is_connected]
  | none =>
    match hs : cenv.sftpFails with
    | some e => simp [hc, hs, Session.is_connected]
    | none => simp [hc, hs] at h

/-- C5 witness. -/
theorem c5_witness :
    (Session.connect ⟨some 1, some 2, "old".data, "root".data⟩ "h".data "u".data
        ⟨false, false⟩ ⟨some (ExcMsg.ioError 7), none, 3, 4⟩).1.is_connected = false ∧
    (Session.connect ⟨some 1, some 2, "old".data, "root".data⟩ "h".data "u".data
        ⟨false, false⟩ ⟨some (ExcMsg.ioError 7), none, 3, 4⟩).1.ssh = none ∧
    (Session.connect ⟨some 1, some 2, "old".data, "root".data⟩ "h".data "u".data
        ⟨false, false⟩ ⟨some (ExcMsg.ioError 7), none, 3, 4⟩).1.sftp = none :=
  c5_connect_failure_disconnected _ _ _ _ _ (by decide)

/-! ## Claim C6 — `disconnect` idempotence -/

/-- C6: `disconnect` raises no error (it is a total function of the
session, whatever the close calls do), always leaves the session
Disconnected, emits `connectivity-changed(false)` on every call —
including the second of two consecutive calls — and a failing close of
one handle (the `DiscEnv` flags) prevents neither the attempt to close
the other handle nor the state transition. -/
theorem c6_disconnect_idempotent (s : Session) (env1 env2 : DiscEnv) :
    (s.disconnect env1).events = [SEvent.connectedChanged false] ∧
    ((s.disconnect env1).session.disconnect env2).events = [SEvent.connectedChanged false] ∧
    (s.disconnect env1).session.ssh = none ∧
    (s.disconnect env1).session.sftp = none ∧
    ((s.disconnect env1).session.disconnect env2).session.ssh = none ∧
    ((s.disconnect env1).session.disconnect env2).session.sftp = none ∧
    ((s.disconnect env1).session.disconnect env2).session.is_connected = false ∧
    (s.disconnect env1).sftpCloseAttempted = s.sftp.isSome ∧
    (s.disconnect env1).sshCloseAttempted = s.ssh.isSome := by
  unfold Session.disconnect Session.is_connected
  simp

/-! ## Claim C10 — failed connect overwrites host/username -/

/-- C10: even when `connect` raises, the session's `host` and `username`
fields have already been overwritten with the failed attempt's arguments
(they are assigned before the transport is opened), while both handles
stay absent. -/
theorem c10_failed_connect_overwrites_identity (s : Session) (host username : List Char)
    (denv : DiscEnv) (cenv : ConnectEnv)
    (h : (s.connect host username denv cenv).2.2 ≠ none) :
    (s.connect host username denv cenv).1.host = host ∧
    (s.connect host username denv cenv).1.username = username ∧
    (s.connect host username denv cenv).1.ssh = none ∧
    (s.connect host username denv cenv).1.sftp = none := by
  unfold Session.connect Session.disconnect at *
  match hc : cenv.connectFails with
  | some e => simp [hc]
  | none =>
    match hs : cenv.sftpFails with
    | some e => simp [hc, hs]
    | none => simp [hc, hs] at h

/-- C10 witness: a previously connected session keeps the new, failed
attempt's identity. -/
theorem c10_witness :
    (Session.connect ⟨some 5, some 6, "oldhost".data, "olduser".data⟩ "newhost".data
        "newuser".data ⟨false, false⟩ ⟨none, some ExcMsg.notConnected, 3, 4⟩).1.host
      = "newhost".data ∧
    (Session.connect ⟨some 5, some 6, "oldhost".data, "olduser".data⟩ "newhost".data
        "newuser".data ⟨false, false⟩ ⟨none, some ExcMsg.notConnected, 3, 4⟩).1.username
      = "newuser".data ∧
    (Session.connect ⟨some 5, some 6, "oldhost".data, "olduser".data⟩ "newhost".data
        "newuser".data ⟨false, false⟩ ⟨none, some ExcMsg.notConnected, 3, 4⟩).1.ssh = none ∧
    (Session.connect ⟨some 5, some 6, "oldhost".data, "olduser".data⟩ "newhost".data
        "newuser".data ⟨false, false⟩ ⟨none, some ExcMsg.notConnected, 3, 4⟩).1.sftp = none :=
  c10_failed_connect_overwrites_identity _ _ _ _ _ (by decide)

/-! ## Claim C7 — directory listing sort -/

/-- C7: the refresh sort puts directories strictly before files and
orders each group ascending by case-insensitive name; on the spec's
example `[z dir, a file, B dir]` it produces `B, z, a`.  The output is a
permutation of the input. -/
theorem c7_refresh_sort (l : List RemoteEntry) :
    refreshSort [⟨"z".data, true, 0, 0, 0⟩, ⟨"a".data, false, 0, 0, 0⟩,
        ⟨"B".data, true, 0, 0, 0⟩] =
      [⟨"B".data, true, 0, 0, 0⟩, ⟨"z".data, true, 0, 0, 0⟩,
        ⟨"a".data, false, 0, 0, 0⟩] ∧
    (refreshSort l).Pairwise (fun a b =>
      (b.is_dir = true → a.is_dir = true) ∧
      (a.is_dir = b.is_dir → lexLe (entryKeyLower a) (entryKeyLower b) = true)) ∧
    (refreshSort l).Perm l := by
  refine ⟨by decide, ?_, List.perm_insertionSort entryLe l⟩
  have hs := List.sorted_insertionSort entryLe l
  refine hs.imp ?_
  intro a b h
  unfold entryLe keyLe at h
  cases ha : a.is_dir <;> cases hb : b.is_dir <;> simp_all

/-! ## Trace lemmas -/

@[simp] theorem countFinished_nil : countFinished [] = 0 := rfl

@[simp] theorem countFinished_cons_status (s : StatusMsg) (r : List Event) :
    countFinished (Event.status s :: r) = countFinished r := by
  simp [countFinished, isTerminal, List.filter]

@[simp] theorem countFinished_cons_progress (n : Nat) (r : List Event) :
    countFinished (Event.progress n :: r) = countFinished r := by
  simp [countFinished, isTerminal, List.filter]

@[simp] theorem countFinished_cons_finished (ok : Bool) (m : Msg) (r : List Event) :
    countFinished (Event.finished ok m :: r) = countFinished r + 1 := by
  simp [countFinished, isTerminal, List.filter]

@[simp] theorem countFinished_append (a b : List Event) :
    countFinished (a ++ b) = countFinished a + countFinished b := by
  simp [countFinished, List.filter_append]

@[simp] theorem progressValues_nil : progressValues [] = [] := rfl

@[simp] theorem progressValues_cons_status (s : StatusMsg) (r : List Event) :
    progressValues (Event.status s :: r) = progressValues r := rfl

@[simp] theorem progressValues_cons_progress (n : Nat) (r : List Event) :
    progressValues (Event.progress n :: r) = n :: progressValues r := rfl

@[simp] theorem progressValues_cons_finished (ok : Bool) (m : Msg) (r : List Event) :
    progressValues (Event.finished ok m :: r) = progressValues r := rfl

@[simp] theorem progressValues_append (a b : List Event) :
    progressValues (a ++ b) = progressValues a ++ progressValues b := by
  induction a with
  | nil => rfl
  | cons e r ih => cases e <;> simp [ih]

@[simp] theorem transferCallbacks_countFinished (d : Nat) (obs : List (Nat × Bool)) :
    countFinished (transferCallbacks d obs).1 = 0 := by
  induction obs with
  | nil => rfl
  | cons x rest ih =>
      obtain ⟨tx, c⟩ := x
      by_cases hd : 0 < d <;> cases c <;> simp [transferCallbacks, hd, ih]

@[simp] theorem put_file_countFinished (name : List Char) (total : Nat) (env : PutEnv) :
    countFinished (put_file name total env).1 = 0 := by
  unfold put_file
  by_cases hr : (transferCallbacks total env.obs).2 = true <;>
    cases he : env.err <;> simp [hr, he]

@[simp] theorem get_file_countFinished (name : List Char) (env : GetEnv) :
    countFinished (get_file name env).1 = 0 := by
  unfold get_file
  by_cases hr : (transferCallbacks ((match env.stat with
      | Except.error _ => some 0
      | Except.ok v => v).getD 0) env.obs).2 = true <;>
    cases he : env.err <;> simp [hr, he]

theorem nondecreasing_iff_chain' (l : List Nat) :
    nondecreasing l = true ↔ List.Chain' (· ≤ ·) l := by
  induction l with
  | nil => simp [nondecreasing]
  | cons a r ih =>
      cases r with
      | nil => simp [nondecreasing]
      | cons b r' =>
          rw [List.chain'_cons, ← ih]
          simp [nondecreasing]

theorem pctOf_le_100 (d tx : Nat) : pctOf d tx ≤ 100 := by
  simp [pctOf]

theorem pctOf_mono (d : Nat) {tx ty : Nat} (h : tx ≤ ty) : pctOf d tx ≤ pctOf d ty := by
  unfold pctOf
  have : tx * 100 / d ≤ ty * 100 / d :=
    Nat.div_le_div_right (Nat.mul_le_mul_right 100 h)
  omega

theorem transferCallbacks_zero (obs : List (Nat × Bool)) :
    (transferCallbacks 0 obs).1 = [] := by
  induction obs with
  | nil => rfl
  | cons x rest ih =>
      obtain ⟨tx, c⟩ := x
      cases c <;> simp [transferCallbacks, ih]

theorem transferCallbacks_pos (d : Nat) (hd : 0 < d) (obs : List (Nat × Bool)) :
    ∃ txs : List Nat, txs <+: obs.map Prod.fst ∧
      (transferCallbacks d obs).1 = txs.map fun tx => Event.progress (pctOf d tx) := by
  induction obs with
  | nil => exact ⟨[], List.nil_prefix, rfl⟩
  | cons x rest ih =>
      obtain ⟨tx, c⟩ := x
      cases c with
      | true =>
          refine ⟨[tx], ⟨List.map Prod.fst rest, by simp⟩, by simp [transferCallbacks, hd]⟩
      | false =>
          obtain ⟨txs, ⟨t, ht⟩, heq⟩ := ih
          exact ⟨tx :: txs, ⟨t, by simp [ht]⟩, by simp [transferCallbacks, hd, heq]⟩

theorem transferCallbacks_cancelled (d : Nat) (obs : List (Nat × Bool))
    (h : ∃ x ∈ obs, x.2 = true) : (transferCallbacks d obs).2 = true := by
  induction obs with
  | nil => simp at h
  | cons x rest ih =>
      obtain ⟨tx, c⟩ := x
      cases c with
      | true => by_cases hd : 0 < d <;> simp [transferCallbacks]
      | false =>
          have h' : ∃ x ∈ rest, x.2 = true := by
            rcases h with ⟨y, hy, hb⟩
            rcases List.mem_cons.mp hy with rfl | hy'
            · simp at hb
            · exact ⟨y, hy', hb⟩
          by_cases hd : 0 < d <;> simp [transferCallbacks, ih h']

theorem transferCallbacks_not_cancelled (d : Nat) (obs : List (Nat × Bool))
    (h : ∀ x ∈ obs, x.2 = false) : (transferCallbacks d obs).2 = false := by
  induction obs with
  | nil => rfl
  | cons x rest ih =>
      obtain ⟨tx, c⟩ := x
      have hc : c = false := h (tx, c) (by simp)
      subst hc
      have h' : ∀ x ∈ rest, x.2 = false := fun y hy => h y (by simp [hy])
      by_cases hd : 0 < d <;> simp [transferCallbacks, ih h']

theorem progressValues_map_progress (f : Nat → Nat) (l : List Nat) :
    progressValues (l.map fun x => Event.progress (f x)) = l.map f := by
  induction l with
  | nil => rfl
  | cons x r ih => simp [ih]

theorem transferCallbacks_progress_props (d : Nat) (obs : List (Nat × Bool))
    (hmono : List.Chain' (· ≤ ·) (obs.map Prod.fst)) :
    (∀ v ∈ progressValues (transferCallbacks d obs).1, v ≤ 100) ∧
    List.Chain' (· ≤ ·) (progressValues (transferCallbacks d obs).1) := by
  rcases Nat.eq_zero_or_pos d with rfl | hd
  · simp [transferCallbacks_zero]
  · obtain ⟨txs, hpre, heq⟩ := transferCallbacks_pos d hd obs
    rw [heq, progressValues_map_progress]
    constructor
    · intro v hv
      rcases List.mem_map.mp hv with ⟨tx, _, rfl⟩
      exact pctOf_le_100 d tx
    · have htxs : List.Chain' (· ≤ ·) txs := hmono.sublist hpre.sublist
      exact List.chain'_map_of_chain' _ (fun a b h => pctOf_mono d h) htxs

/-- Properties of a per-file trace `status :: progress 0 :: cb` whose
callback part `cb` has bounded, non-decreasing progress values. -/
theorem trace_props_noTail (s : StatusMsg) (cb : List Event)
    (hb : ∀ v ∈ progressValues cb, v ≤ 100)
    (hc : List.Chain' (· ≤ ·) (progressValues cb)) :
    (∀ v ∈ progressValues ([Event.status s, Event.progress 0] ++ cb), v ≤ 100) ∧
    (progressValues ([Event.status s, Event.progress 0] ++ cb)).head? = some 0 ∧
    List.Chain' (· ≤ ·) (progressValues ([Event.status s, Event.progress 0] ++ cb)) := by
  refine ⟨?_, by simp, ?_⟩
  · intro v hv
    simp only [List.cons_append, List.nil_append, progressValues_cons_status,
      progressValues_cons_progress, List.mem_cons] at hv
    rcases hv with rfl | hv
    · omega
    · exact hb v hv
  · simp only [List.cons_append, List.nil_append, progressValues_cons_status,
      progressValues_cons_progress]
    exact List.chain'_cons'.mpr ⟨fun y _ => Nat.zero_le y, hc⟩

/-- The same, for a successful transfer ending in the explicit
`progress(100)`. -/
theorem trace_props_tail (s : StatusMsg) (cb : List Event)
    (hb : ∀ v ∈ progressValues cb, v ≤ 100)
    (hc : List.Chain' (· ≤ ·) (progressValues cb)) :
    (∀ v ∈ progressValues ([Event.status s, Event.progress 0] ++ cb ++
      [Event.progress 100]), v ≤ 100) ∧
    (progressValues ([Event.status s, Event.progress 0] ++ cb ++
      [Event.progress 100])).head? = some 0 ∧
    List.Chain' (· ≤ ·) (progressValues ([Event.status s, Event.progress 0] ++ cb ++
      [Event.progress 100])) ∧
    (progressValues ([Event.status s, Event.progress 0] ++ cb ++
      [Event.progress 100])).getLast? = some 100 := by
  have hpv : progressValues ([Event.status s, Event.progress 0] ++ cb ++
      [Event.progress 100]) = (0 :: progressValues cb) ++ [100] := by
    simp
  refine ⟨?_, ?_, ?_, ?_⟩
  · intro v hv
    rw [hpv] at hv
    rcases List.mem_append.mp hv with hv | hv
    · rcases List.mem_cons.mp hv with rfl | hv
      · omega
      · exact hb v hv
    · simp at hv
      omega
  · rw [hpv]
    simp
  · rw [hpv]
    refine List.chain'_append.mpr ⟨?_, List.chain'_singleton 100, ?_⟩
    · exact List.chain'_cons'.mpr ⟨fun y _ => Nat.zero_le y, hc⟩
    · intro x hx y hy
      simp only [List.head?_cons, Option.mem_def, Option.some.injEq] at hy
      subst hy
      rcases List.mem_cons.mp (List.mem_of_mem_getLast? hx) with rfl | hx'
      · omega
      · exact hb x hx'
  · rw [hpv, List.getLast?_concat]

/-- The per-file progress contract of `_put_file`: given that the library
reports non-decreasing transferred byte counts, the emitted percentages
are bounded by 100, start at 0, are non-decreasing, and end at exactly
100 on success. -/
theorem put_file_progress_props (name : List Char) (total : Nat) (env : PutEnv)
    (hmono : List.Chain' (· ≤ ·) (env.obs.map Prod.fst)) :
    (∀ v ∈ progressValues (put_file name total env).1, v ≤ 100) ∧
    (progressValues (put_file name total env).1).head? = some 0 ∧
    List.Chain' (· ≤ ·) (progressValues (put_file name total env).1) ∧
    ((put_file name total env).2 = none →
      (progressValues (put_file name total env).1).getLast? = some 100) := by
  obtain ⟨hb, hc⟩ := transferCallbacks_progress_props total env.obs hmono
  unfold put_file
  by_cases hr : (transferCallbacks total env.obs).2 = true
  · rw [if_pos hr]
    obtain ⟨h1, h2, h3⟩ :=
      trace_props_noTail (StatusMsg.uploading name) (transferCallbacks total env.obs).1 hb hc
    exact ⟨h1, h2, h3, fun h => by simp at h⟩
  · rw [if_neg hr]
    cases he : env.err with
    | some e =>
        obtain ⟨h1, h2, h3⟩ :=
          trace_props_noTail (StatusMsg.uploading name) (transferCallbacks total env.obs).1 hb hc
        exact ⟨h1, h2, h3, fun h => by simp at h⟩
    | none =>
        obtain ⟨h1, h2, h3, h4⟩ :=
          trace_props_tail (StatusMsg.uploading name) (transferCallbacks total env.obs).1 hb hc
        exact ⟨h1, h2, h3, fun _ => h4⟩

/-- The per-file progress contract of `_get_file` (any `stat` outcome). -/
theorem get_file_progress_props (name : List Char) (env : GetEnv)
    (hmono : List.Chain' (· ≤ ·) (env.obs.map Prod.fst)) :
    (∀ v ∈ progressValues (get_file name env).1, v ≤ 100) ∧
    (progressValues (get_file name env).1).head? = some 0 ∧
    List.Chain' (· ≤ ·) (progressValues (get_file name env).1) ∧
    ((get_file name env).2 = none →
      (progressValues (get_file name env).1).getLast? = some 100) := by
  unfold get_file
  obtain ⟨hb, hc⟩ := transferCallbacks_progress_props
    ((match env.stat with
      | Except.error _ => some 0
      | Except.ok v => v).getD 0) env.obs hmono
  by_cases hr : (transferCallbacks ((match env.stat with
      | Except.error _ => some 0
      | Except.ok v => v).getD 0) env.obs).2 = true
  · rw [if_pos hr]
    obtain ⟨h1, h2, h3⟩ := trace_props_noTail (StatusMsg.downloading name) _ hb hc
    exact ⟨h1, h2, h3, fun h => by simp at h⟩
  · rw [if_neg hr]
    cases he : env.err with
    | some e =>
        obtain ⟨h1, h2, h3⟩ := trace_props_noTail (StatusMsg.downloading name) _ hb hc
        exact ⟨h1, h2, h3, fun h => by simp at h⟩
    | none =>
        obtain ⟨h1, h2, h3, h4⟩ := trace_props_tail (StatusMsg.downloading name) _ hb hc
        exact ⟨h1, h2, h3, fun _ => h4⟩

/-! ## Claim C3 — per-file progress contract -/

/-- C3: within a single file transfer (upload or download), assuming the
transfer library reports non-decreasing cumulative byte counts, the
emitted progress values are non-decreasing, all lie in `[0,100]` (they
are naturals, hence `≥ 0`), the sequence begins with `0` — emitted
unconditionally at the start of each file of a batch — and on success it
ends at exactly `100`. -/
theorem c3_progress_per_file :
    (∀ (name : List Char) (total : Nat) (env : PutEnv),
      nondecreasing (env.obs.map Prod.fst) = true →
      (∀ v ∈ progressValues (put_file name total env).1, v ≤ 100) ∧
      (progressValues (put_file name total env).1).head? = some 0 ∧
      nondecreasing (progressValues (put_file name total env).1) = true ∧
      ((put_file name total env).2 = none →
        (progressValues (put_file name total env).1).getLast? = some 100)) ∧
    (∀ (name : List Char) (env : GetEnv),
      nondecreasing (env.obs.map Prod.fst) = true →
      (∀ v ∈ progressValues (get_file name env).1, v ≤ 100) ∧
      (progressValues (get_file name env).1).head? = some 0 ∧
      nondecreasing (progressValues (get_file name env).1) = true ∧
      ((get_file name env).2 = none →
        (progressValues (get_file name env).1).getLast? = some 100)) := by
  constructor
  · intro name total env hmono
    obtain ⟨h1, h2, h3, h4⟩ :=
      put_file_progress_props name total env ((nondecreasing_iff_chain' _).mp hmono)
    exact ⟨h1, h2, (nondecreasing_iff_chain' _).mpr h3, h4⟩
  · intro name env hmono
    obtain ⟨h1, h2, h3, h4⟩ :=
      get_file_progress_props name env ((nondecreasing_iff_chain' _).mp hmono)
    exact ⟨h1, h2, (nondecreasing_iff_chain' _).mpr h3, h4⟩

/-- C3 witness. -/
theorem c3_witness :
    ((∀ v ∈ progressValues (put_file "f".data 10 ⟨[(5, false), (10, false)], none⟩).1,
        v ≤ 100) ∧
      (progressValues (put_file "f".data 10 ⟨[(5, false), (10, false)], none⟩).1).head? =
        some 0 ∧
      nondecreasing
        (progressValues (put_file "f".data 10 ⟨[(5, false), (10, false)], none⟩).1) = true ∧
      ((put_file "f".data 10 ⟨[(5, false), (10, false)], none⟩).2 = none →
        (progressValues
          (put_file "f".data 10 ⟨[(5, false), (10, false)], none⟩).1).getLast? =
          some 100)) ∧
    ((∀ v ∈ progressValues
        (get_file "g".data ⟨Except.ok (some 4), [(2, false), (4, false)], none⟩).1,
        v ≤ 100) ∧
      (progressValues
        (get_file "g".data ⟨Except.ok (some 4), [(2, false), (4, false)], none⟩).1).head? =
        some 0 ∧
      nondecreasing (progressValues
        (get_file "g".data ⟨Except.ok (some 4), [(2, false), (4, false)], none⟩).1) = true ∧
      ((get_file "g".data ⟨Except.ok (some 4), [(2, false), (4, false)], none⟩).2 = none →
        (progressValues
          (get_file "g".data
            ⟨Except.ok (some 4), [(2, false), (4, false)], none⟩).1).getLast? =
          some 100)) :=
  ⟨c3_progress_per_file.1 "f".data 10 ⟨[(5, false), (10, false)], none⟩ (by decide),
   c3_progress_per_file.2 "g".data ⟨Except.ok (some 4), [(2, false), (4, false)], none⟩
     (by decide)⟩

/-! ## Claim C9 — zero-byte upload -/

/-- C9: for a zero-byte file the percentage computation is guarded by
`total > 0`: the callback emits no percentage derived from the byte
counts (whatever the callback observations are), yet the transfer still
emits `progress(0)` at the start and `progress(100)` on success, so the
whole per-file progress sequence is exactly `[0, 100]`. -/
theorem c9_zero_byte_guard (name : List Char) (env : PutEnv) :
    (transferCallbacks 0 env.obs).1 = [] ∧
    ((put_file name 0 env).2 = none →
      progressValues (put_file name 0 env).1 = [0, 100]) := by
  refine ⟨transferCallbacks_zero env.obs, fun h => ?_⟩
  unfold put_file at h ⊢
  by_cases hr : (transferCallbacks 0 env.obs).2 = true
  · rw [if_pos hr] at h
    simp at h
  · rw [if_neg hr] at h ⊢
    cases he : env.err with
    | some e =>
        rw [he] at h
        simp at h
    | none =>
        simp [transferCallbacks_zero]

/-- C9 witness. -/
theorem c9_witness :
    progressValues (put_file "z".data 0 ⟨[(0, false)], none⟩).1 = [0, 100] :=
  (c9_zero_byte_guard "z".data ⟨[(0, false)], none⟩).2 (by decide)

/-! ## Claim C2 — cancellation mid-batch -/

theorem put_file_success (name : List Char) (total : Nat) (env : PutEnv)
    (herr : env.err = none) (hobs : ∀ x ∈ env.obs, x.2 = false) :
    (put_file name total env).2 = none := by
  unfold put_file
  rw [if_neg (by simp [transferCallbacks_not_cancelled total env.obs hobs]), herr]

theorem put_file_cancelled (name : List Char) (total : Nat) (env : PutEnv)
    (h : ∃ x ∈ env.obs, x.2 = true) :
    (put_file name total env).2 = some ExcMsg.cancelled := by
  unfold put_file
  rw [if_pos (transferCallbacks_cancelled total env.obs h)]

/-- A batch entry that transfers without incident: no cancellation seen
at its checkpoints and no I/O error. -/
def cleanUp (f : UpFileEnv) : Prop :=
  f.preCancel = false ∧ f.put.err = none ∧ ∀ x ∈ f.put.obs, x.2 = false

instance (f : UpFileEnv) : Decidable (cleanUp f) := by unfold cleanUp; infer_instance

theorem uploadLoop_cons_success (rdir : List Char) (n i : Nat) (g : UpFileEnv)
    (rest : List UpFileEnv) (hpre : g.preCancel = false)
    (hsucc : (put_file g.name g.size g.put).2 = none) :
    uploadLoop rdir n i (g :: rest) =
      ⟨Event.status (StatusMsg.uploadingIdx (i + 1) n (join_remote rdir g.name)) ::
         (put_file g.name g.size g.put).1 ++ (uploadLoop rdir n (i + 1) rest).events,
       i :: (uploadLoop rdir n (i + 1) rest).attempted,
       i :: (uploadLoop rdir n (i + 1) rest).completed,
       (uploadLoop rdir n (i + 1) rest).err⟩ := by
  simp only [uploadLoop]
  rw [if_neg (by simp [hpre]), hsucc]

theorem uploadLoop_cons_cancelled (rdir : List Char) (n i : Nat) (g : UpFileEnv)
    (rest : List UpFileEnv) (hpre : g.preCancel = false)
    (hbit : ∃ x ∈ g.put.obs, x.2 = true) :
    uploadLoop rdir n i (g :: rest) =
      ⟨Event.status (StatusMsg.uploadingIdx (i + 1) n (join_remote rdir g.name)) ::
         (put_file g.name g.size g.put).1,
       [i], [], some ExcMsg.cancelled⟩ := by
  simp only [uploadLoop]
  rw [if_neg (by simp [hpre]), put_file_cancelled g.name g.size g.put hbit]

theorem uploadLoop_clean_prefix (rdir : List Char) (n : Nat) (a : List UpFileEnv)
    (ha : ∀ g ∈ a, cleanUp g) (rest : List UpFileEnv) :
    ∀ i, ∃ evs0, countFinished evs0 = 0 ∧
      uploadLoop rdir n i (a ++ rest) =
        ⟨evs0 ++ (uploadLoop rdir n (i + a.length) rest).events,
         List.range' i a.length ++ (uploadLoop rdir n (i + a.length) rest).attempted,
         List.range' i a.length ++ (uploadLoop rdir n (i + a.length) rest).completed,
         (uploadLoop rdir n (i + a.length) rest).err⟩ := by
  induction a with
  | nil =>
      intro i
      exact ⟨[], rfl, by simp [List.range']⟩
  | cons g a' ih =>
      intro i
      obtain ⟨hpre, herr, hobs⟩ := ha g (List.mem_cons_self g a')
      have hsucc := put_file_success g.name g.size g.put herr hobs
      obtain ⟨evs0, hcnt, heq⟩ := ih (fun x hx => ha x (List.mem_cons_of_mem g hx)) (i + 1)
      refine ⟨Event.status (StatusMsg.uploadingIdx (i + 1) n (join_remote rdir g.name)) ::
        ((put_file g.name g.size g.put).1 ++ evs0), by simp [hcnt], ?_⟩
      rw [List.cons_append, uploadLoop_cons_success rdir n i g (a' ++ rest) hpre hsucc, heq]
      have hidx : i + 1 + a'.length = i + (g :: a').length := by simp; omega
      rw [hidx]
      have hrange : List.range' i (g :: a').length =
          i :: List.range' (i + 1) a'.length := by
        simp only [List.length_cons, List.range'_succ]
      rw [hrange]
      congr 1
      simp

/-- C2: in an `upload_files` batch `a ++ f :: b` over a live session,
where every file in `a` transfers cleanly and during `f`'s transfer the
cancellation flag becomes set (observed by one of `f`'s progress
callbacks), the job emits exactly one terminal event, it is a failure
carrying the `Cancelled` cause, the files fully transferred are exactly
the ones strictly before `f` (nothing undoes them — the engine performs
no deletion), and no file after `f` is ever attempted: the attempted set
is exactly `a`'s files plus `f` itself. -/
theorem c2_upload_cancelled_mid_batch (rdir : List Char) (a : List UpFileEnv)
    (f : UpFileEnv) (b : List UpFileEnv)
    (ha : ∀ g ∈ a, cleanUp g) (hf : f.preCancel = false)
    (hbit : ∃ x ∈ f.put.obs, x.2 = true) :
    countFinished (upload_files true none rdir (a ++ f :: b)).events = 1 ∧
    (upload_files true none rdir (a ++ f :: b)).events.getLast? =
      some (Event.finished false (Msg.uploadFailed ExcMsg.cancelled)) ∧
    (upload_files true none rdir (a ++ f :: b)).completed = List.range a.length ∧
    (upload_files true none rdir (a ++ f :: b)).attempted = List.range (a.length + 1) := by
  have hne : a ++ f :: b ≠ [] := by simp
  obtain ⟨evs0, hcnt, heq⟩ :=
    uploadLoop_clean_prefix (normalize_remote rdir) (a ++ f :: b).length a ha (f :: b) 0
  have hcanc := uploadLoop_cons_cancelled (normalize_remote rdir) (a ++ f :: b).length
    (0 + a.length) f b hf hbit
  unfold upload_files
  rw [if_neg hne]
  have hexec : sessionExec true none = none := rfl
  rw [hexec, heq, hcanc]
  refine ⟨by simp [hcnt], ?_, by simp [List.range_eq_range'], ?_⟩
  · rw [List.getLast?_concat]
  · simp [List.range_succ, List.range_eq_range']

/-- C2 witness: three files, the second cancelled mid-transfer. -/
theorem c2_witness :
    countFinished (upload_files true none "/dst".data
      ([⟨false, "f1".data, 3, ⟨[(3, false)], none⟩⟩] ++
        ⟨false, "f2".data, 4, ⟨[(2, true)], none⟩⟩ ::
        [⟨false, "f3".data, 5, ⟨[], none⟩⟩])).events = 1 ∧
    (upload_files true none "/dst".data
      ([⟨false, "f1".data, 3, ⟨[(3, false)], none⟩⟩] ++
        ⟨false, "f2".data, 4, ⟨[(2, true)], none⟩⟩ ::
        [⟨false, "f3".data, 5, ⟨[], none⟩⟩])).events.getLast? =
      some (Event.finished false (Msg.uploadFailed ExcMsg.cancelled)) ∧
    (upload_files true none "/dst".data
      ([⟨false, "f1".data, 3, ⟨[(3, false)], none⟩⟩] ++
        ⟨false, "f2".data, 4, ⟨[(2, true)], none⟩⟩ ::
        [⟨false, "f3".data, 5, ⟨[], none⟩⟩])).completed = List.range 1 ∧
    (upload_files true none "/dst".data
      ([⟨false, "f1".data, 3, ⟨[(3, false)], none⟩⟩] ++
        ⟨false, "f2".data, 4, ⟨[(2, true)], none⟩⟩ ::
        [⟨false, "f3".data, 5, ⟨[], none⟩⟩])).attempted = List.range (1 + 1) :=
  c2_upload_cancelled_mid_batch "/dst".data
    [⟨false, "f1".data, 3, ⟨[(3, false)], none⟩⟩]
    ⟨false, "f2".data, 4, ⟨[(2, true)], none⟩⟩
    [⟨false, "f3".data, 5, ⟨[], none⟩⟩]
    (by decide) (by decide) (by decide)

/-! ## Claim C4 — exactly one terminal event per job -/

theorem oneTerminal_concat (pre : List Event) (ok : Bool) (m : Msg)
    (h : countFinished pre = 0) : oneTerminal (pre ++ [Event.finished ok m]) :=
  ⟨pre, ok, m, rfl, h⟩

theorem oneTerminal_single (ok : Bool) (m : Msg) : oneTerminal [Event.finished ok m] :=
  ⟨[], ok, m, rfl, rfl⟩

@[simp] theorem uploadLoop_countFinished (rdir : List Char) (n i : Nat)
    (files : List UpFileEnv) : countFinished (uploadLoop rdir n i files).events = 0 := by
  induction files generalizing i with
  | nil => rfl
  | cons f rest ih =>
      by_cases hp : f.preCancel = true
      · simp [uploadLoop, hp]
      · cases hput : (put_file f.name f.size f.put).2 with
        | some e => simp [uploadLoop, hp, hput]
        | none => simp [uploadLoop, hp, hput, ih]

@[simp] theorem downloadLoop_countFinished (n i : Nat) (files : List DownFileEnv) :
    countFinished (downloadLoop n i files).1 = 0 := by
  induction files generalizing i with
  | nil => rfl
  | cons f rest ih =>
      by_cases hp : f.preCancel = true
      · simp [downloadLoop, hp]
      · cases hget : (get_file f.name f.get).2 with
        | some e => simp [downloadLoop, hp, hget]
        | none => simp [downloadLoop, hp, hget, ih]

/-- C4: every job kind, on every input and environment, emits exactly one
terminal `finished` event, and no event — in particular no progress
event — follows it: the terminal event is the last of the job's trace. -/
theorem c4_exactly_one_terminal :
    (∀ (connected : Bool) (execErr : Option ExcMsg) (rdir : List Char)
      (files : List UpFileEnv),
      oneTerminal (upload_files connected execErr rdir files).events) ∧
    (∀ (folderName rdir : List Char) (env : UploadFolderEnv),
      oneTerminal (upload_folder folderName rdir env)) ∧
    (∀ (mkErr : Option ExcMsg) (files : List DownFileEnv),
      oneTerminal (download_files mkErr files)) ∧
    (∀ (rf : List Char) (env : DownloadFolderEnv),
      oneTerminal (download_folder rf env)) := by
  refine ⟨?_, ?_, ?_, ?_⟩
  · intro connected execErr rdir files
    unfold upload_files
    by_cases hfe : files = []
    · rw [if_pos hfe]
      exact oneTerminal_single false Msg.noLocalFiles
    · rw [if_neg hfe]
      cases hse : sessionExec connected execErr with
      | some e =>
          try dsimp only
          refine oneTerminal_concat _ _ _ ?_
          simp
      | none =>
          try dsimp only
          cases herr : (uploadLoop (normalize_remote rdir) files.length 0 files).err with
          | some e =>
              try dsimp only
              refine oneTerminal_concat _ _ _ ?_
              simp
          | none =>
              try dsimp only
              refine oneTerminal_concat _ _ _ ?_
              simp
  · intro folderName rdir env
    unfold upload_folder
    by_cases h0 : env.isLocalDir = false
    · rw [if_pos h0]
      exact oneTerminal_single false Msg.notAFolder
    · rw [if_neg h0]
      cases h1 : env.tmpErr with
      | some e => exact oneTerminal_single _ _
      | none =>
          try dsimp only
          cases h2 : env.tarErr with
          | some e =>
              try dsimp only
              refine oneTerminal_concat _ _ _ ?_
              simp
          | none =>
              try dsimp only
              cases h3 : sessionExec env.connected env.mkdirErr with
              | some e =>
                  try dsimp only
                  refine oneTerminal_concat _ _ _ ?_
                  simp
              | none =>
                  try dsimp only
                  cases h4 : (put_file env.tarName env.tarSize env.put).2 with
                  | some e =>
                      try dsimp only
                      refine oneTerminal_concat _ _ _ ?_
                      simp
                  | none =>
                      try dsimp only
                      by_cases h5 : env.extractRemote = true
                      · rw [h5]
                        try dsimp only
                        cases h6 : sessionExecCode env.connected env.extractExec with
                        | error e =>
                            try dsimp only
                            refine oneTerminal_concat _ _ _ ?_
                            simp
                        | ok code =>
                            try dsimp only
                            by_cases h7 : code = 0
                            · subst h7
                              rw [if_neg (show ¬((0 : Int) ≠ 0) from by omega)]
                              refine oneTerminal_concat _ _ _ ?_
                              simp
                            · rw [if_pos h7]
                              refine oneTerminal_concat _ _ _ ?_
                              simp
                      · rw [Bool.not_eq_true] at h5
                        rw [h5]
                        try dsimp only
                        refine oneTerminal_concat _ _ _ ?_
                        simp
  · intro mkErr files
    unfold download_files
    cases h0 : mkErr with
    | some e => exact oneTerminal_single false (Msg.downloadFailed e)
    | none =>
        try dsimp only
        by_cases hfe : files = []
        · rw [if_pos hfe]
          exact oneTerminal_single false Msg.noRemoteFiles
        · rw [if_neg hfe]
          cases herr : (downloadLoop files.length 0 files).2 with
          | some e =>
              try dsimp only
              refine oneTerminal_concat _ _ _ ?_
              simp
          | none =>
              try dsimp only
              refine oneTerminal_concat _ _ _ ?_
              simp
  · intro rf env
    unfold download_folder
    cases h0 : env.mkErr with
    | some e => exact oneTerminal_single false (Msg.folderDownloadFailed e)
    | none =>
        try dsimp only
        cases h1 : sessionExecCode env.connected env.archiveExec with
        | error e =>
            try dsimp only
            refine oneTerminal_concat _ _ _ ?_
            simp
        | ok code =>
            try dsimp only
            by_cases h2 : code = 0
            · subst h2
              rw [if_neg (show ¬((0 : Int) ≠ 0) from by omega)]
              cases h3 : (get_file env.archiveName env.get).2 with
              | some e =>
                  try dsimp only
                  refine oneTerminal_concat _ _ _ ?_
                  simp
              | none =>
                  try dsimp only
                  cases h4 : sessionExec env.connected env.rmErr with
                  | some e =>
                      try dsimp only
                      refine oneTerminal_concat _ _ _ ?_
                      simp
                  | none =>
                      try dsimp only
                      by_cases h5 : env.extractLocal = true
                      · rw [h5]
                        try dsimp only
                        cases h6 : env.extractErr with
                        | some e =>
                            try dsimp only
                            refine oneTerminal_concat _ _ _ ?_
                            simp
                        | none =>
                            try dsimp only
                            refine oneTerminal_concat _ _ _ ?_
                            simp
                      · rw [Bool.not_eq_true] at h5
                        rw [h5]
                        try dsimp only
                        refine oneTerminal_concat _ _ _ ?_
                        simp
            · rw [if_pos h2]
              refine oneTerminal_concat _ _ _ ?_
              simp
